import Mathlib

/-!
# Verification of the MPI cellular-automaton traffic simulation

Shallow embedding of the distributed traffic simulation
(`Simulation::run_simulation` and `main`) and proofs of the specified
properties: the pooled-statistics reduction, the segment partitioning,
the handoff wire format and link topology, the per-tick driver ordering,
the warm-up criterion for recording transit times, the reconstruction of
inbound handoff records, and the determinism of the final gather.

Arithmetic the program performs on `double` is embedded over `ℚ`
(the claims about it are stated over exact arithmetic); machine `int`
values are embedded as `Int`.
-/

namespace TrafficSim

/-! ## Statistics: local samples and the head's pooled combination

The local per-worker accumulator (`Statistic`) is an external
collaborator; a worker's accumulator is represented by the list of
sample values that were added to it.  `sampleMean` / `sampleVariance`
are the single-pass population mean and variance of such a list. -/

/-- Population mean of a list of samples (0 for the empty list,
matching the `0/0 = 0` convention of `ℚ` division). -/
def sampleMean (l : List ℚ) : ℚ := l.sum / (l.length : ℚ)

/-- Single-pass population variance of a list of samples:
mean of squares minus square of mean. -/
def sampleVariance (l : List ℚ) : ℚ :=
  (l.map (fun x => x * x)).sum / (l.length : ℚ) - sampleMean l * sampleMean l

/-- The `(average, variance, numSamples)` triple a worker delivers to the
head at run end (`double data[3]` in `Simulation::run_simulation`). -/
structure StatTriple where
  average : ℚ
  variance : ℚ
  numSamples : ℚ
deriving DecidableEq

/-- The exact local triple of a worker whose accumulator holds the
samples `g`. -/
def localTriple (g : List ℚ) : StatTriple :=
  ⟨sampleMean g, sampleVariance g, (g.length : ℚ)⟩

/-- The head's running totals (`total_sum`, `total_squared_sum`,
`total_samples` in `Simulation::run_simulation`). -/
structure Totals where
  total_sum : ℚ
  total_squared_sum : ℚ
  total_samples : ℚ
deriving DecidableEq

/-- Initialization of the totals from rank 0's own values:
`total_sum = average * numSamples`,
`total_squared_sum = variance * numSamples + average * average * numSamples`,
`total_samples = numSamples`. -/
def initTotals (s : StatTriple) : Totals :=
  ⟨s.average * s.numSamples,
   s.variance * s.numSamples + s.average * s.average * s.numSamples,
   s.numSamples⟩

/-- One accumulation step of the head's receive loop:
`total_sum += received[0] * received[2]`,
`total_squared_sum += received[1]*received[2] + received[0]*received[0]*received[2]`,
`total_samples += received[2]`. -/
def accumulateStat (t : Totals) (d : StatTriple) : Totals :=
  ⟨t.total_sum + d.average * d.numSamples,
   t.total_squared_sum + (d.variance * d.numSamples + d.average * d.average * d.numSamples),
   t.total_samples + d.numSamples⟩

/-- `final_average = total_sum / total_samples`. -/
def final_average (t : Totals) : ℚ := t.total_sum / t.total_samples

/-- `final_variance = total_squared_sum / total_samples - final_average²`. -/
def final_variance (t : Totals) : ℚ :=
  t.total_squared_sum / t.total_samples - final_average t * final_average t

/-- The head's whole combination: its own triple initializes the totals,
then the remaining ranks' triples are folded in. -/
def headCombine : List StatTriple → Totals
  | [] => ⟨0, 0, 0⟩
  | h :: rest => rest.foldl accumulateStat (initTotals h)

lemma initTotals_eq_accumulate_zero (s : StatTriple) :
    initTotals s = accumulateStat ⟨0, 0, 0⟩ s := by
  simp [initTotals, accumulateStat]

lemma mean_mul_count (g : List ℚ) : sampleMean g * (g.length : ℚ) = g.sum := by
  rcases eq_or_ne g [] with h | h
  · simp [h, sampleMean]
  · have hlen : (g.length : ℚ) ≠ 0 := by simpa using h
    field_simp [sampleMean]

lemma var_mul_count (g : List ℚ) :
    sampleVariance g * (g.length : ℚ) + sampleMean g * sampleMean g * (g.length : ℚ)
      = (g.map (fun x => x * x)).sum := by
  rcases eq_or_ne g [] with h | h
  · simp [h, sampleVariance, sampleMean]
  · have hlen : (g.length : ℚ) ≠ 0 := by simpa using h
    field_simp [sampleVariance]
    ring

lemma foldl_total_sum (ts : List StatTriple) (t : Totals) :
    (ts.foldl accumulateStat t).total_sum
      = t.total_sum + (ts.map (fun d => d.average * d.numSamples)).sum := by
  induction ts generalizing t with
  | nil => simp
  | cons d rest ih => simp [List.foldl_cons, ih, accumulateStat, add_assoc]

lemma foldl_total_squared_sum (ts : List StatTriple) (t : Totals) :
    (ts.foldl accumulateStat t).total_squared_sum
      = t.total_squared_sum
        + (ts.map (fun d =>
            d.variance * d.numSamples + d.average * d.average * d.numSamples)).sum := by
  induction ts generalizing t with
  | nil => simp
  | cons d rest ih => simp [List.foldl_cons, ih, accumulateStat, add_assoc]

lemma foldl_total_samples (ts : List StatTriple) (t : Totals) :
    (ts.foldl accumulateStat t).total_samples
      = t.total_samples + (ts.map (fun d => d.numSamples)).sum := by
  induction ts generalizing t with
  | nil => simp
  | cons d rest ih => simp [List.foldl_cons, ih, accumulateStat, add_assoc]

lemma headCombine_total_sum (gs : List (List ℚ)) :
    (headCombine (gs.map localTriple)).total_sum = gs.flatten.sum := by
  cases gs with
  | nil => simp [headCombine]
  | cons g rest =>
    have hfun : (fun g : List ℚ => sampleMean g * (g.length : ℚ))
        = fun g : List ℚ => g.sum := funext mean_mul_count
    simp only [List.map_cons, headCombine, foldl_total_sum, List.map_map,
      List.flatten_cons, List.sum_append, List.sum_flatten]
    simp only [initTotals, localTriple, Function.comp_def, hfun, mean_mul_count]

lemma headCombine_total_squared_sum (gs : List (List ℚ)) :
    (headCombine (gs.map localTriple)).total_squared_sum
      = (gs.flatten.map (fun x => x * x)).sum := by
  cases gs with
  | nil => simp [headCombine]
  | cons g rest =>
    have hfun : (fun g : List ℚ =>
          sampleVariance g * (g.length : ℚ)
            + sampleMean g * sampleMean g * (g.length : ℚ))
        = fun g : List ℚ => (g.map (fun x => x * x)).sum := funext var_mul_count
    simp only [List.map_cons, headCombine, foldl_total_squared_sum, List.map_map,
      List.flatten_cons, List.map_append, List.sum_append, List.map_flatten, List.sum_flatten]
    simp only [initTotals, localTriple, Function.comp_def, hfun, var_mul_count]

lemma headCombine_total_samples (gs : List (List ℚ)) :
    (headCombine (gs.map localTriple)).total_samples = (gs.flatten.length : ℚ) := by
  cases gs with
  | nil => simp [headCombine]
  | cons g rest =>
    simp only [List.map_cons, headCombine, foldl_total_samples, List.map_map,
      List.length_flatten, List.flatten_cons, List.length_append]
    simp only [initTotals, localTriple, Function.comp_def]
    push_cast
    simp [Function.comp_def]

/-- C1. For every family of per-worker accumulators holding the exact
count, mean and population variance of sample groups, the head's pooled
combination equals the single-pass mean/variance over the union of all
samples (over exact arithmetic). -/
theorem pooled_statistics_exact (gs : List (List ℚ))
    (hN : 0 < gs.flatten.length) :
    final_average (headCombine (gs.map localTriple)) = sampleMean gs.flatten ∧
    final_variance (headCombine (gs.map localTriple)) = sampleVariance gs.flatten := by
  have hs := headCombine_total_sum gs
  have hq := headCombine_total_squared_sum gs
  have hn := headCombine_total_samples gs
  constructor
  · rw [final_average, hs, hn, sampleMean]
  · rw [final_variance, final_average, hs, hq, hn, sampleVariance, sampleMean]

/-- Witness for C1 at the concrete partition `[[1, 2], [3]]`. -/
theorem pooled_statistics_exact_witness :
    0 < ([([1, 2] : List ℚ), [3]]).flatten.length ∧
    (final_average (headCombine ([([1, 2] : List ℚ), [3]].map localTriple))
        = sampleMean ([([1, 2] : List ℚ), [3]]).flatten ∧
     final_variance (headCombine ([([1, 2] : List ℚ), [3]].map localTriple))
        = sampleVariance ([([1, 2] : List ℚ), [3]]).flatten) :=
  ⟨by decide, pooled_statistics_exact [[1, 2], [3]] (by decide)⟩

/-! ## Segment partitioning (`main`)

`main` computes, per rank,
`segment_size = road_length / size`, `remainder = road_length % size`,
`start_pos = rank * segment_size + min(rank, remainder)`,
`end_pos = start_pos + segment_size - 1` (incremented when
`rank < remainder`), and passes `road_length_per_process = end_pos - start_pos`
to the `Simulation`.  All quantities are C `int`s, embedded as `Int`. -/

/-- `segment_size = road_length / size`. -/
def segment_size (road_length size : Int) : Int := road_length / size

/-- `remainder = road_length % size`. -/
def remainderOf (road_length size : Int) : Int := road_length % size

/-- `start_pos = rank * segment_size + std::min(rank, remainder)`. -/
def start_pos (road_length size rank : Int) : Int :=
  rank * segment_size road_length size + min rank (remainderOf road_length size)

/-- `end_pos = start_pos + segment_size - 1`, then `end_pos++` when
`rank < remainder`. -/
def end_pos (road_length size rank : Int) : Int :=
  start_pos road_length size rank + segment_size road_length size - 1
    + (if rank < remainderOf road_length size then 1 else 0)

/-- `road_length_per_process = end_pos - start_pos`, the per-rank segment
length handed to the `Simulation` constructor and `run_simulation`. -/
def road_length_per_process (road_length size rank : Int) : Int :=
  end_pos road_length size rank - start_pos road_length size rank

/-- The number of road cells in the inclusive index range
`[start_pos, end_pos]` assigned to a rank. -/
def spanCells (road_length size rank : Int) : Int :=
  end_pos road_length size rank - start_pos road_length size rank + 1

lemma spanCells_eq (road_length size rank : Int) :
    spanCells road_length size rank
      = segment_size road_length size
        + (if rank < remainderOf road_length size then 1 else 0) := by
  unfold spanCells end_pos
  ring

lemma road_length_per_process_eq (road_length size rank : Int) :
    road_length_per_process road_length size rank
      = segment_size road_length size - 1
        + (if rank < remainderOf road_length size then 1 else 0) := by
  unfold road_length_per_process end_pos
  ring

/-- C4. The per-rank segment size the program actually computes and uses,
`road_length_per_process`, is one cell short of the intended
`L/N`-plus-remainder partition: at `L = 10`, `N = 2` every rank should
get 5 cells, but both ranks get 4, and the computed sizes sum to 8, not
10 — while the inclusive `[start_pos, end_pos]` ranges do have the
intended sizes. -/
theorem road_length_per_process_off_by_one :
    road_length_per_process 10 2 0 = 4 ∧
    road_length_per_process 10 2 1 = 4 ∧
    segment_size 10 2 = 5 ∧
    remainderOf 10 2 = 0 ∧
    spanCells 10 2 0 = 5 ∧
    spanCells 10 2 1 = 5 ∧
    road_length_per_process 10 2 0 + road_length_per_process 10 2 1 ≠ 10 := by
  decide

/-! ## Startup process-count check (`main`)

`main` checks `size < 2` right after obtaining the rank and size, prints
a diagnostic to `cerr` and calls `MPI_Abort(MPI_COMM_WORLD, 1)`, which
terminates every process; otherwise it constructs the `Simulation` and
runs the tick loop `while (time < max_time)` starting from `time = 0`. -/

/-- Outcome of the process-count check in `main`. -/
structure StartupCheck where
  aborted : Bool
  abortCode : Int
  diagnostic : String
deriving DecidableEq

/-- The `size < 2` check: diagnostic on `cerr` and
`MPI_Abort(MPI_COMM_WORLD, 1)` (terminating all processes) when it
fails, otherwise the program proceeds. -/
def processCountCheck (size : Int) : StartupCheck :=
  if size < 2 then
    ⟨true, 1, "It takes at least 2 processes to run the program!"⟩
  else
    ⟨false, 0, ""⟩

/-- Number of tick-loop iterations executed by a launch: `MPI_Abort`
does not return, so an aborted launch runs none; otherwise the loop
`while (time < max_time)` from `time = 0` runs `max_time` iterations. -/
def simulationTicksRun (size : Int) (max_time : Nat) : Nat :=
  if (processCountCheck size).aborted then 0 else max_time

/-- C6. A launch with fewer than 2 worker processes is a fatal
configuration error: the check aborts all processes with code 1 after
printing a diagnostic, and no simulation tick is ever executed. -/
theorem fewer_than_two_processes_aborts (size : Int) (max_time : Nat)
    (h : size < 2) :
    (processCountCheck size).aborted = true ∧
    (processCountCheck size).abortCode = 1 ∧
    (processCountCheck size).diagnostic
      = "It takes at least 2 processes to run the program!" ∧
    simulationTicksRun size max_time = 0 := by
  simp [processCountCheck, simulationTicksRun, h]

/-- Witness for C6 at a single-process launch (`size = 1`). -/
theorem fewer_than_two_processes_aborts_witness :
    (1 : Int) < 2 ∧
    ((processCountCheck 1).aborted = true ∧
     (processCountCheck 1).abortCode = 1 ∧
     (processCountCheck 1).diagnostic
       = "It takes at least 2 processes to run the program!" ∧
     simulationTicksRun 1 1000 = 0) :=
  ⟨by decide, fewer_than_two_processes_aborts 1 1000 (by decide)⟩

/-! ## Handoff wire format and link topology

`run_simulation` declares
`struct VehicleData { int lane; int id; int position; int speed; int time_on_road; }`
(five 4-byte `int`s, 20 bytes) and per tick sends, when
`neighbor_right < size` with `neighbor_right = rank + 1`, first
`send_count` as one `MPI_INT` and then `send_count * sizeof(VehicleData)`
bytes to `neighbor_right`; a rank with `rank > 0` receives the matching
pair from `neighbor_left = rank - 1`. -/

/-- The `VehicleData` record of `run_simulation` (field order as in the
struct declaration). -/
structure VehicleData where
  lane : Int
  vdId : Int
  position : Int
  speed : Int
  time_on_road : Int
deriving DecidableEq

/-- A `VehicleData` on the wire: its five `int32` fields in struct
layout order. -/
def encodeRecord (v : VehicleData) : List Int :=
  [v.lane, v.vdId, v.position, v.speed, v.time_on_road]

/-- Bytes of one `int32` on the wire. -/
def int32Bytes : Nat := 4

/-- A handoff message on the wire: the record count (the leading
`MPI_INT`) followed by the flattened fields of the records. -/
def encodeMsg (batch : List VehicleData) : Int × List Int :=
  ((batch.length : Int), (batch.map encodeRecord).flatten)

/-- Total bytes of a handoff message: 4 bytes of count plus 4 bytes per
transmitted `int32` field. -/
def msgBytes (batch : List VehicleData) : Nat :=
  int32Bytes + int32Bytes * ((batch.map encodeRecord).flatten).length

/-- The set of handoff sends a rank performs in one tick, as
(destination, message) pairs: one message to `rank + 1` when
`neighbor_right < size`, nothing otherwise. -/
def handoffSends (rank size : Nat) (batch : List VehicleData) :
    List (Nat × (Int × List Int)) :=
  if rank + 1 < size then [(rank + 1, encodeMsg batch)] else []

/-- The sources a rank performs a handoff receive from in one tick:
`neighbor_left = rank - 1` when `rank > 0`, nothing at the head. -/
def handoffRecvSources (rank : Nat) : List Nat :=
  if 0 < rank then [rank - 1] else []

lemma flatten_encode_length (batch : List VehicleData) :
    ((batch.map encodeRecord).flatten).length = 5 * batch.length := by
  induction batch with
  | nil => simp
  | cons v rest ih =>
    simp [encodeRecord, ih]
    omega

/-- C5. Wire format and topology of the handoff: each message is a
4-byte record count followed by exactly that many 20-byte records whose
five `int32` fields appear in the order
{lane, id, position, speed, ticks-on-segment}; per tick a rank sends
exactly one such batch, and only over the link `rank → rank + 1`
(exactly when a right neighbor exists), and receives only from
`rank - 1`. -/
theorem handoff_wire_format (rank size : Nat) (batch : List VehicleData)
    (hright : rank + 1 < size) :
    handoffSends rank size batch = [(rank + 1, encodeMsg batch)] ∧
    (∀ p ∈ handoffSends rank size batch, p.1 = rank + 1) ∧
    (handoffSends rank size batch).length = 1 ∧
    (encodeMsg batch).1 = (batch.length : Int) ∧
    msgBytes batch = 4 + 20 * batch.length ∧
    (∀ v : VehicleData,
      encodeRecord v = [v.lane, v.vdId, v.position, v.speed, v.time_on_road] ∧
      int32Bytes * (encodeRecord v).length = 20) ∧
    (0 < rank → handoffRecvSources rank = [rank - 1]) ∧
    handoffRecvSources 0 = [] := by
  refine ⟨by simp [handoffSends, hright], ?_, by simp [handoffSends, hright],
    rfl, ?_, ?_, ?_, by simp [handoffRecvSources]⟩
  · intro p hp
    simp [handoffSends, hright] at hp
    simp [hp]
  · rw [msgBytes, flatten_encode_length, int32Bytes]
    ring
  · intro v
    exact ⟨rfl, rfl⟩
  · intro hr
    simp [handoffRecvSources, hr]

/-- Witness for C5 at rank 0 of a 2-process run with a one-record batch. -/
theorem handoff_wire_format_witness :
    0 + 1 < 2 ∧
    (handoffSends 0 2 [⟨1, 7, 3, 2, 4⟩] = [(1, encodeMsg [⟨1, 7, 3, 2, 4⟩])] ∧
     (∀ p ∈ handoffSends 0 2 [⟨1, 7, 3, 2, 4⟩], p.1 = 0 + 1) ∧
     (handoffSends 0 2 [⟨1, 7, 3, 2, 4⟩]).length = 1 ∧
     (encodeMsg [⟨1, 7, 3, 2, 4⟩]).1 = (([⟨1, 7, 3, 2, 4⟩] : List VehicleData).length : Int) ∧
     msgBytes [⟨1, 7, 3, 2, 4⟩] = 4 + 20 * ([⟨1, 7, 3, 2, 4⟩] : List VehicleData).length ∧
     (∀ v : VehicleData,
       encodeRecord v = [v.lane, v.vdId, v.position, v.speed, v.time_on_road] ∧
       int32Bytes * (encodeRecord v).length = 20) ∧
     (0 < 0 → handoffRecvSources 0 = [0 - 1]) ∧
     handoffRecvSources 0 = []) :=
  ⟨by decide, handoff_wire_format 0 2 [⟨1, 7, 3, 2, 4⟩] (by decide)⟩

/-! ## Per-tick event order of the driver loop

The order of the phases of one iteration of the `while` loop of
`run_simulation`: the `rank == 0` block runs the local CA update and
collects finished vehicles; the `rank > 0` block receives from the left
neighbor, reconstructs, and runs the local update (with its own removal
bookkeeping inline); then the guarded send to `neighbor_right`; then
`this->time++`; then, only for `rank == 0`, the removal bookkeeping for
exited vehicles and `attemptSpawn`. -/

/-- One observable phase of a tick-loop iteration. -/
inductive TickEvent where
  | recvHandoff (src : Nat)
  | localUpdate
  | sendHandoff (dest : Nat)
  | advanceTime
  | headRemoval
  | spawn
deriving DecidableEq

/-- The phases of one iteration of the tick loop at a given rank, in
program order. -/
def tickEvents (rank size : Nat) : List TickEvent :=
  (if rank = 0 then [TickEvent.localUpdate]
   else [TickEvent.recvHandoff (rank - 1), TickEvent.localUpdate]) ++
  (if rank + 1 < size then [TickEvent.sendHandoff (rank + 1)] else []) ++
  [TickEvent.advanceTime] ++
  (if rank = 0 then [TickEvent.headRemoval, TickEvent.spawn] else [])

/-- C8. `attemptSpawn` runs exactly once per tick at rank 0 and never at
any other rank; at the head it is the last phase of the iteration,
strictly after the send exchange, the tick-counter advance and the
removal bookkeeping for exited vehicles. -/
theorem spawn_only_at_head_and_last (rank size : Nat) (hsize : 2 ≤ size) :
    tickEvents 0 size
      = [TickEvent.localUpdate, TickEvent.sendHandoff 1, TickEvent.advanceTime,
         TickEvent.headRemoval, TickEvent.spawn] ∧
    (tickEvents 0 size).count TickEvent.spawn = 1 ∧
    (rank ≠ 0 → (tickEvents rank size).count TickEvent.spawn = 0) := by
  have h1 : 0 + 1 < size := by omega
  refine ⟨by simp [tickEvents, h1], by simp [tickEvents, h1, List.count_cons], ?_⟩
  intro hr
  unfold tickEvents
  rcases Nat.lt_or_ge (rank + 1) size with h | h
  · simp [hr, h, List.count_cons]
  · have : ¬ rank + 1 < size := by omega
    simp [hr, this, List.count_cons]

/-- Witness for C8 in a 2-process run, checked at rank 1. -/
theorem spawn_only_at_head_and_last_witness :
    2 ≤ 2 ∧
    (tickEvents 0 2
        = [TickEvent.localUpdate, TickEvent.sendHandoff 1, TickEvent.advanceTime,
           TickEvent.headRemoval, TickEvent.spawn] ∧
     (tickEvents 0 2).count TickEvent.spawn = 1 ∧
     (1 ≠ 0 → (tickEvents 1 2).count TickEvent.spawn = 0)) :=
  ⟨by decide, spawn_only_at_head_and_last 1 2 (by decide)⟩

/-! ## Warm-up criterion for recording transit times

Both recording sites guard `travel_time->addValue(...)` with
`if (this->time > this->inputs.warmup_time)`, but they read the tick
counter at different points of the iteration: interior ranks
(`rank > 0`) record inside their vehicle loop, *before* `this->time++`;
the head records in its removal block, *after* `this->time++`.  The
accumulator is represented by the list of values added to it; `t` is
the tick-counter value at loop entry of the iteration. -/

/-- Head-rank recording for one iteration entered with counter `t`:
`this->time++` has already run, so the guard reads `t + 1`; every
removed vehicle's travel time is added when the guard holds. -/
def headStatsAfterTick (t warmup_time : Nat) (exitTimes samples : List ℚ) :
    List ℚ :=
  if warmup_time < t + 1 then samples ++ exitTimes else samples

/-- Interior-rank recording for one iteration entered with counter `t`:
the guard runs before `this->time++`, so it reads `t`. -/
def interiorStatsAfterTick (t warmup_time : Nat) (exitTimes samples : List ℚ) :
    List ℚ :=
  if warmup_time < t then samples ++ exitTimes else samples

/-- C7 counterexample. The exit-tick criterion is *not* applied
identically at head and interior ranks: in the iteration entered with
the tick counter equal to `warmup_time` (here both 5), a vehicle
exiting at the head is recorded while one exiting at an interior rank
is not. -/
theorem warmup_criterion_differs :
    headStatsAfterTick 5 5 [3] [] = [3] ∧
    interiorStatsAfterTick 5 5 [3] [] = [] := by
  constructor <;> decide

/-- C7 amended. A transit time is added iff the tick-counter value read
by the guard exceeds `warmup_time`; the head reads the counter after the
increment (records the iteration's exits iff `warmup_time < t + 1`),
interior ranks read it before (iff `warmup_time < t`), so the two sites
differ by exactly one tick. -/
theorem warmup_criterion_characterization (t warmup_time : Nat)
    (exitTimes samples : List ℚ) (hne : exitTimes ≠ []) :
    (headStatsAfterTick t warmup_time exitTimes samples = samples ++ exitTimes
        ↔ warmup_time < t + 1) ∧
    (headStatsAfterTick t warmup_time exitTimes samples = samples
        ↔ ¬ warmup_time < t + 1) ∧
    (interiorStatsAfterTick t warmup_time exitTimes samples = samples ++ exitTimes
        ↔ warmup_time < t) ∧
    (interiorStatsAfterTick t warmup_time exitTimes samples = samples
        ↔ ¬ warmup_time < t) := by
  have happ : samples ++ exitTimes ≠ samples := by
    intro h
    apply hne
    have h' : samples ++ exitTimes = samples ++ [] := by simpa using h
    exact List.append_cancel_left h'
  refine ⟨?_, ?_, ?_, ?_⟩ <;>
    · simp only [headStatsAfterTick, interiorStatsAfterTick]
      split <;> simp_all

/-- Witness for the amended C7 at `t = 5`, `warmup_time = 5`. -/
theorem warmup_criterion_characterization_witness :
    ([(3 : ℚ)] ≠ []) ∧
    ((headStatsAfterTick 5 5 [3] [] = [] ++ [3] ↔ 5 < 5 + 1) ∧
     (headStatsAfterTick 5 5 [3] [] = [] ↔ ¬ 5 < 5 + 1) ∧
     (interiorStatsAfterTick 5 5 [3] [] = [] ++ [3] ↔ 5 < 5) ∧
     (interiorStatsAfterTick 5 5 [3] [] = [] ↔ ¬ 5 < 5)) :=
  ⟨by decide, warmup_criterion_characterization 5 5 [3] [] (by decide)⟩

/-! ## Reconstruction of inbound handoff records (`rank > 0`)

For each received `vdata`, `run_simulation` scans all local lanes and,
on `existing_lane->getLaneNumber() == vdata.lane`, overwrites the
`new_vehicle` pointer with `new Vehicle(existing_lane, vdata.id,
vdata.position, inputs)`; after the scan it unconditionally calls
`setSpeed(vdata.speed)` and `setTimeOnRoad(vdata.time_on_road)` and
pushes the pointer.  The pointer is declared uninitialized, so a scan
with no match leaves it unset (or stale); that is modelled by the
`Option` accumulator `acc`, with `none` standing for the
uninitialized pointer. -/

/-- A local lane, identified by its lane number
(`Lane::getLaneNumber`). -/
structure LaneModel where
  laneNumber : Int
deriving DecidableEq

/-- A live local vehicle as far as reconstruction is concerned. -/
structure VehicleModel where
  lane : LaneModel
  vehId : Int
  position : Int
  speed : Int
  time_on_road : Int
deriving DecidableEq

/-- Modelled from the spec: `Vehicle.cpp` is not among the sources; per
the spec the constructor `Vehicle(lane_ptr, id, initial_position,
inputs)` binds the new vehicle to the given lane at the given id and
position (speed and ticks-on-segment are then set through `setSpeed` /
`setTimeOnRoad`, declared in `Vehicle.h`). -/
def mkVehicle (l : LaneModel) (id pos : Int) : VehicleModel :=
  ⟨l, id, pos, 0, 0⟩

/-- The lane-matching scan over the local lanes: each matching lane
overwrites the `new_vehicle` pointer (`acc`). -/
def bindToMatchingLane (lanes : List LaneModel) (vd : VehicleData)
    (acc : Option VehicleModel) : Option VehicleModel :=
  lanes.foldl
    (fun cur l =>
      if l.laneNumber = vd.lane then some (mkVehicle l vd.vdId vd.position)
      else cur)
    acc

/-- Full reconstruction of one inbound record: the lane scan followed by
`setSpeed` and `setTimeOnRoad` on the resulting pointer (dereferencing
it — `none` is the undefined-behavior branch). -/
def reconstructVehicle (lanes : List LaneModel) (vd : VehicleData)
    (acc : Option VehicleModel) : Option VehicleModel :=
  (bindToMatchingLane lanes vd acc).map
    (fun v => { v with speed := vd.speed, time_on_road := vd.time_on_road })

lemma bindToMatchingLane_no_match (lanes : List LaneModel) (vd : VehicleData)
    (acc : Option VehicleModel) (h : ∀ l ∈ lanes, l.laneNumber ≠ vd.lane) :
    bindToMatchingLane lanes vd acc = acc := by
  induction lanes generalizing acc with
  | nil => rfl
  | cons l rest ih =>
    have hl : l.laneNumber ≠ vd.lane := h l (List.mem_cons_self l rest)
    simp only [bindToMatchingLane, List.foldl_cons, if_neg hl]
    exact ih acc (fun x hx => h x (List.mem_cons_of_mem l hx))

lemma bindToMatchingLane_match (lanes : List LaneModel) (vd : VehicleData)
    (hnd : (lanes.map LaneModel.laneNumber).Nodup) :
    ∀ (acc : Option VehicleModel) (l : LaneModel), l ∈ lanes →
      l.laneNumber = vd.lane →
      bindToMatchingLane lanes vd acc = some (mkVehicle l vd.vdId vd.position) := by
  induction lanes with
  | nil => intro acc l hl; exact absurd hl (List.not_mem_nil l)
  | cons x rest ih =>
    intro acc l hl hnum
    have hnd' : (rest.map LaneModel.laneNumber).Nodup := (List.nodup_cons.mp hnd).2
    have hx : x.laneNumber ∉ rest.map LaneModel.laneNumber :=
      (List.nodup_cons.mp hnd).1
    rcases List.mem_cons.mp hl with rfl | hmem
    · simp only [bindToMatchingLane, List.foldl_cons, if_pos hnum]
      have : ∀ l' ∈ rest, l'.laneNumber ≠ vd.lane := by
        intro l' hl' heq
        exact hx (by rw [hnum, ← heq]; exact List.mem_map_of_mem LaneModel.laneNumber hl')
      exact bindToMatchingLane_no_match rest vd _ this
    · have hxl : x.laneNumber ≠ vd.lane := by
        intro heq
        exact hx (by rw [heq, ← hnum]; exact List.mem_map_of_mem LaneModel.laneNumber hmem)
      simp only [bindToMatchingLane, List.foldl_cons, if_neg hxl]
      exact ih hnd' acc l hmem hnum

/-- C9. If an inbound record's lane number matches some local lane (the
lane numbers being distinct), the reconstructed vehicle is bound to
exactly that lane with the record's id, position, speed and
ticks-on-segment — independently of the state `acc` of the
uninitialized pointer — so the no-match branch that would dereference an
unset pointer is never taken. -/
theorem reconstruction_binds_matching_lane (lanes : List LaneModel)
    (vd : VehicleData) (l : LaneModel)
    (hnd : (lanes.map LaneModel.laneNumber).Nodup)
    (hmem : l ∈ lanes) (hnum : l.laneNumber = vd.lane) :
    ∀ acc : Option VehicleModel,
      reconstructVehicle lanes vd acc
        = some ⟨l, vd.vdId, vd.position, vd.speed, vd.time_on_road⟩ := by
  intro acc
  rw [reconstructVehicle, bindToMatchingLane_match lanes vd hnd acc l hmem hnum]
  rfl

/-- Witness for C9: a record with lane number 5 arriving at a worker
with lanes 0 and 5 is bound to lane 5, whatever the stale pointer held. -/
theorem reconstruction_binds_matching_lane_witness :
    (([⟨0⟩, ⟨5⟩] : List LaneModel).map LaneModel.laneNumber).Nodup ∧
    (⟨5⟩ : LaneModel) ∈ ([⟨0⟩, ⟨5⟩] : List LaneModel) ∧
    (∀ acc : Option VehicleModel,
      reconstructVehicle [⟨0⟩, ⟨5⟩] ⟨5, 9, 3, 2, 4⟩ acc
        = some ⟨⟨5⟩, 9, 3, 2, 4⟩) :=
  ⟨by decide, by decide,
    reconstruction_binds_matching_lane [⟨0⟩, ⟨5⟩] ⟨5, 9, 3, 2, 4⟩ ⟨5⟩
      (by decide) (by decide) (by decide)⟩

/-! ## Sender-side disposition of finished vehicles

Head rank (`rank == 0`): when `performLaneMove` returns a nonzero
`time_on_road`, the vehicle index is pushed onto `vehicles_to_remove`
(it is deleted in the removal block at the end of the iteration) *and*
its `VehicleData` is pushed onto `send_to_right`.

Interior ranks (`rank > 0`): when `time_on_road != 0`, the record is
always pushed onto `send_to_right`; but the vehicle is removed from the
local lane and vehicle list only when
`prev_pos + new_pos >= road_length_per_process + max_speed` — otherwise
it merely gets `setTempPosition(road_length_per_process)` and stays
active locally. -/

/-- Head-rank outcome for one vehicle whose move returned `tor`. -/
structure HeadOutcome where
  queuedRecord : Option VehicleData
  removedFromHead : Bool
deriving DecidableEq

/-- The head's handling of one vehicle after `performLaneMove`
(`run_simulation`, `rank == 0` block). -/
def headDispose (v : VehicleModel) (new_pos tor : Int) : HeadOutcome :=
  if tor ≠ 0 then
    ⟨some ⟨v.lane.laneNumber, v.vehId, new_pos, v.speed, tor⟩, true⟩
  else ⟨none, false⟩

/-- Interior-rank outcome for one vehicle whose move returned `tor`. -/
structure InteriorOutcome where
  queuedRecord : Option VehicleData
  removedFromLane : Bool
  clampedToSegmentEnd : Bool
deriving DecidableEq

/-- An interior rank's handling of one vehicle after `performLaneMove`
(`run_simulation`, `rank > 0` block): forwarded always when finished,
removed locally only past the `road_len + max_speed` boundary test,
otherwise clamped to the segment end and kept. -/
def interiorDispose (v : VehicleModel)
    (prev_pos new_pos tor road_len max_speed : Int) : InteriorOutcome :=
  if tor ≠ 0 then
    if prev_pos + new_pos < road_len + max_speed then
      ⟨some ⟨v.lane.laneNumber, v.vehId, new_pos, v.speed, tor⟩, false, true⟩
    else
      ⟨some ⟨v.lane.laneNumber, v.vehId, new_pos, v.speed, tor⟩, true, false⟩
  else ⟨none, false, false⟩

/-- C2 counterexample. A vehicle finishing the head segment past warm-up
is recorded in rank 0's statistics *and* forwarded; the forwarded record
is reconstructed as a live vehicle at rank 1 — so the vehicle both
contributes a recorded exit statistic and remains in flight (and will be
recorded again wherever it next exits), refuting "exactly one recorded
exit statistic at exactly one segment". -/
theorem vehicle_recorded_and_still_in_flight :
    (headDispose ⟨⟨1⟩, 7, 2, 2, 0⟩ 2 4).removedFromHead = true ∧
    (headDispose ⟨⟨1⟩, 7, 2, 2, 0⟩ 2 4).queuedRecord = some ⟨1, 7, 2, 2, 4⟩ ∧
    headStatsAfterTick 10 3 [4] [] = [4] ∧
    reconstructVehicle [⟨1⟩] ⟨1, 7, 2, 2, 4⟩ none = some ⟨⟨1⟩, 7, 2, 2, 4⟩ := by
  refine ⟨rfl, rfl, by decide, rfl⟩

/-- C2 amended. Vehicle accounting is per segment, not global: a vehicle
whose move finishes a segment is forwarded exactly once by that segment
(and so contributes one local transit-time sample per segment it
completes, past warm-up) — it is removed at the head always, but at an
interior rank only when it passes the `road_len + max_speed` boundary
test; in the buffer-zone branch it is forwarded while also staying
active at the sender, so it can even be duplicated. -/
theorem per_segment_disposition (v : VehicleModel)
    (prev_pos new_pos tor road_len max_speed : Int) :
    (tor ≠ 0 →
      (headDispose v new_pos tor).removedFromHead = true ∧
      (headDispose v new_pos tor).queuedRecord
        = some ⟨v.lane.laneNumber, v.vehId, new_pos, v.speed, tor⟩) ∧
    (tor = 0 →
      (headDispose v new_pos tor).removedFromHead = false ∧
      (headDispose v new_pos tor).queuedRecord = none) ∧
    (tor ≠ 0 → road_len + max_speed ≤ prev_pos + new_pos →
      (interiorDispose v prev_pos new_pos tor road_len max_speed).removedFromLane
          = true ∧
      (interiorDispose v prev_pos new_pos tor road_len max_speed).queuedRecord
        = some ⟨v.lane.laneNumber, v.vehId, new_pos, v.speed, tor⟩) ∧
    (tor ≠ 0 → prev_pos + new_pos < road_len + max_speed →
      (interiorDispose v prev_pos new_pos tor road_len max_speed).removedFromLane
          = false ∧
      (interiorDispose v prev_pos new_pos tor road_len max_speed).queuedRecord
        = some ⟨v.lane.laneNumber, v.vehId, new_pos, v.speed, tor⟩) ∧
    (tor = 0 →
      (interiorDispose v prev_pos new_pos tor road_len max_speed).queuedRecord
          = none ∧
      (interiorDispose v prev_pos new_pos tor road_len max_speed).removedFromLane
          = false) := by
  refine ⟨fun h => ?_, fun h => ?_, fun h hge => ?_, fun h hlt => ?_, fun h => ?_⟩
  · simp [headDispose, h]
  · simp [headDispose, h]
  · have : ¬ prev_pos + new_pos < road_len + max_speed := not_lt.mpr hge
    simp [interiorDispose, h, this]
  · simp [interiorDispose, h, hlt]
  · simp [interiorDispose, h]

/-- Witness for the amended C2 at a concrete finished vehicle. -/
theorem per_segment_disposition_witness :
    ((4 : Int) ≠ 0) ∧
    ((headDispose ⟨⟨1⟩, 7, 2, 2, 0⟩ 2 4).removedFromHead = true ∧
     (headDispose ⟨⟨1⟩, 7, 2, 2, 0⟩ 2 4).queuedRecord = some ⟨1, 7, 2, 2, 4⟩) :=
  ⟨by decide, (per_segment_disposition ⟨⟨1⟩, 7, 2, 2, 0⟩ 5 2 4 10 3).1 (by decide)⟩

/-- C3 counterexample. In the buffer-zone branch
(`prev_pos + new_pos < road_len + max_speed`) an interior sender queues
the vehicle's record for the right neighbor *without* removing its own
copy; the receiver reconstructs a live vehicle from that record, so two
workers hold an active copy of the same logical vehicle (id 42) at
once. -/
theorem two_active_copies_after_buffer_handoff :
    (interiorDispose ⟨⟨0⟩, 42, 6, 2, 0⟩ 5 6 3 10 3).queuedRecord
        = some ⟨0, 42, 6, 2, 3⟩ ∧
    (interiorDispose ⟨⟨0⟩, 42, 6, 2, 0⟩ 5 6 3 10 3).removedFromLane = false ∧
    reconstructVehicle [⟨0⟩] ⟨0, 42, 6, 2, 3⟩ none = some ⟨⟨0⟩, 42, 6, 2, 3⟩ := by
  refine ⟨by decide, by decide, rfl⟩

/-- C3 amended. Serialize-destroy-on-send holds only on the removal
branch: for a finished vehicle at an interior rank the record is always
queued, but the sender's copy is destroyed iff
`road_len + max_speed ≤ prev_pos + new_pos`; in the complementary
buffer-zone branch the sender keeps an active copy clamped to the
segment end while the receiver reconstructs another, so two workers can
simultaneously hold active copies of one logical vehicle. -/
theorem ownership_transfer_characterization (v : VehicleModel)
    (prev_pos new_pos tor road_len max_speed : Int) (h : tor ≠ 0) :
    ((interiorDispose v prev_pos new_pos tor road_len max_speed).removedFromLane
        = true ↔ road_len + max_speed ≤ prev_pos + new_pos) ∧
    ((interiorDispose v prev_pos new_pos tor road_len max_speed).queuedRecord).isSome
        = true ∧
    ((interiorDispose v prev_pos new_pos tor road_len max_speed).clampedToSegmentEnd
        = true ↔ prev_pos + new_pos < road_len + max_speed) := by
  rcases lt_or_ge (prev_pos + new_pos) (road_len + max_speed) with hlt | hge
  · have h2 : ¬ road_len + max_speed ≤ prev_pos + new_pos := not_le.mpr hlt
    simp [interiorDispose, h, hlt, h2]
  · have h2 : ¬ prev_pos + new_pos < road_len + max_speed := not_lt.mpr hge
    simp [interiorDispose, h, h2, hge]

/-- Witness for the amended C3 at a concrete buffer-zone vehicle. -/
theorem ownership_transfer_characterization_witness :
    ((3 : Int) ≠ 0) ∧
    (((interiorDispose ⟨⟨0⟩, 42, 6, 2, 0⟩ 5 6 3 10 3).removedFromLane
        = true ↔ (10 : Int) + 3 ≤ 5 + 6) ∧
     ((interiorDispose ⟨⟨0⟩, 42, 6, 2, 0⟩ 5 6 3 10 3).queuedRecord).isSome
        = true ∧
     ((interiorDispose ⟨⟨0⟩, 42, 6, 2, 0⟩ 5 6 3 10 3).clampedToSegmentEnd
        = true ↔ (5 : Int) + 6 < 10 + 3)) :=
  ⟨by decide,
    ownership_transfer_characterization ⟨⟨0⟩, 42, 6, 2, 0⟩ 5 6 3 10 3 (by decide)⟩

/-! ## The final statistics gather at the head

After the barrier, the head runs
`for (int source = 1; source < size; source++)` and in each iteration
blocks on `MPI_Recv(received_data, 3, MPI_DOUBLE, source, 0, ...)` — a
receive addressed to that specific source rank.  Arrival timing is
modelled as the list of `(source, triple)` messages in arrival order; a
receive addressed to `source` consumes that source's message wherever it
sits in the arrival order. -/

/-- The source ranks the head receives from, in loop order:
`1, 2, ..., size - 1`. -/
def gatherOrder (size : Nat) : List Nat := List.range' 1 (size - 1)

/-- `MPI_Recv(..., source, ...)`: the message of the given source rank,
irrespective of its position in the arrival order. -/
def recvStat (arrivals : List (Nat × StatTriple)) (src : Nat) :
    Option StatTriple :=
  (arrivals.find? (fun p => p.1 == src)).map Prod.snd

/-- The head's gather loop: its own triple initializes the totals, then
sources `1..size-1` are received and accumulated in loop order. -/
def headGather (own : StatTriple) (size : Nat)
    (arrivals : List (Nat × StatTriple)) : Totals :=
  (gatherOrder size).foldl
    (fun acc src =>
      match recvStat arrivals src with
      | some d => accumulateStat acc d
      | none => acc)
    (initTotals own)

lemma find?_pred_of_eq_some {α : Type} (pr : α → Bool) (l : List α) (a : α)
    (h : l.find? pr = some a) : pr a = true :=
  List.find?_some h

lemma find?_key_eq_of_perm (a₁ a₂ : List (Nat × StatTriple))
    (hperm : a₁.Perm a₂) (hnd : (a₁.map Prod.fst).Nodup) (src : Nat) :
    a₁.find? (fun p => p.1 == src) = a₂.find? (fun p => p.1 == src) := by
  cases h1 : a₁.find? (fun p => p.1 == src) with
  | none =>
    have hall := List.find?_eq_none.mp h1
    symm
    exact List.find?_eq_none.mpr fun x hx => hall x (hperm.mem_iff.mpr hx)
  | some p =>
    have hp_pred := find?_pred_of_eq_some (fun q : Nat × StatTriple => q.1 == src) a₁ p h1
    have hp_mem : p ∈ a₁ := List.mem_of_find?_eq_some h1
    cases h2 : a₂.find? (fun p => p.1 == src) with
    | none =>
      exact absurd hp_pred
        (List.find?_eq_none.mp h2 p (hperm.mem_iff.mp hp_mem))
    | some q =>
      have hq_pred := find?_pred_of_eq_some (fun r : Nat × StatTriple => r.1 == src) a₂ q h2
      have hq_mem : q ∈ a₁ := hperm.mem_iff.mpr (List.mem_of_find?_eq_some h2)
      have hkeys : p.1 = q.1 := by
        have hp : p.1 = src := by simpa using hp_pred
        have hq : q.1 = src := by simpa using hq_pred
        rw [hp, hq]
      exact congrArg some
        (List.inj_on_of_nodup_map hnd hp_mem hq_mem hkeys)

/-- C10. The head's combined statistic is a deterministic function of
the per-rank triples alone: the gather visits sources in strictly
increasing rank order `1..size-1`, and any reordering of message
arrivals (the workers delivering the same per-source triples) yields
the same totals, hence the same printed result. -/
theorem gather_arrival_order_independent (own : StatTriple) (size : Nat)
    (a₁ a₂ : List (Nat × StatTriple))
    (hnd : (a₁.map Prod.fst).Nodup) (hperm : a₁.Perm a₂) :
    List.Pairwise (· < ·) (gatherOrder size) ∧
    headGather own size a₁ = headGather own size a₂ := by
  constructor
  · exact List.pairwise_lt_range' 1 (size - 1)
  · have hr : ∀ src, recvStat a₁ src = recvStat a₂ src := fun src => by
      rw [recvStat, recvStat, find?_key_eq_of_perm a₁ a₂ hperm hnd src]
    have hfun :
        (fun (acc : Totals) (src : Nat) =>
          match recvStat a₁ src with
          | some d => accumulateStat acc d
          | none => acc)
        = fun (acc : Totals) (src : Nat) =>
          match recvStat a₂ src with
          | some d => accumulateStat acc d
          | none => acc := by
      funext acc src
      rw [hr src]
    rw [headGather, headGather, hfun]

/-- One arrival order of the two worker triples of the C10 witness. -/
def arrivalsA : List (Nat × StatTriple) := [(1, ⟨4, 5, 6⟩), (2, ⟨7, 8, 9⟩)]

/-- The opposite arrival order of the same two worker triples. -/
def arrivalsB : List (Nat × StatTriple) := [(2, ⟨7, 8, 9⟩), (1, ⟨4, 5, 6⟩)]

/-- Witness for C10: two arrival orders of the same two worker triples
produce identical combined totals. -/
theorem gather_arrival_order_independent_witness :
    ((arrivalsA.map Prod.fst).Nodup) ∧
    (arrivalsA.Perm arrivalsB) ∧
    (List.Pairwise (· < ·) (gatherOrder 3) ∧
     headGather ⟨1, 2, 3⟩ 3 arrivalsA = headGather ⟨1, 2, 3⟩ 3 arrivalsB) :=
  ⟨by decide, by decide,
    gather_arrival_order_independent ⟨1, 2, 3⟩ 3 arrivalsA arrivalsB
      (by decide) (by decide)⟩

end TrafficSim
